import Mathlib

/-!
Verification development for the funding-position settlement pipeline
(`src/app/api/fund/confirm`, `watch`, `sweep`, `mint` routes and the
issue-address key vault).

Shallow embedding conventions:
* Addresses and transaction hashes are modelled as `Nat` (the routes only
  compare them for equality after lowercasing).
* Token amounts are modelled as `ℚ`: the routes decode on-chain `uint256`
  values with `formatUnits(raw, decimals)` and work on the resulting
  JavaScript number; `formatUnitsQ raw d = raw / 10 ^ d` captures that value
  exactly (float rounding is out of scope of the claims checked here).
* Each route handler is one atomic transition on a single `Position` row:
  the database conditional updates (`.eq("status", ...)`, `.is(..., null)`)
  are embedded explicitly (`depositCAS`), so interleavings of concurrent
  handlers are serializations of these atomic conditional updates.
* External chain reads (receipts, balances, gas estimates) and the hashes
  returned by transaction submission arrive as oracle inputs in the
  `*Input` structures; each submitted transaction is recorded in an output
  `List ChainTx` so "submits no transaction" is a provable statement.
-/

set_option autoImplicit false

namespace FundPipeline

/-- Position lifecycle status, with the source's string values as
constructor names: `awaiting_funds`, `funded_locked`, `swept_locked`. -/
inductive Status where
  | awaiting_funds
  | funded_locked
  | swept_locked
deriving DecidableEq, Repr

/-- One row of the `fund_positions` table, restricted to the columns the
four pipeline routes read or write. -/
structure Position where
  id : Nat
  position_ref : Nat
  issued_deposit_address : Nat
  expected_min_usdt : ℚ
  expected_max_usdt : ℚ
  status : Status
  deposit_tx_hash : Option Nat
  funded_usdt : Option ℚ
  funded_at : Option Nat
  terminal_user_id : Option Nat
  gas_topup_tx_hash : Option Nat
  gas_topup_bnb : Option ℚ
  gas_topup_at : Option Nat
  sweep_tx_hash : Option Nat
  swept_at : Option Nat
  usddd_mint_tx_hash : Option Nat
  usddd_minted_at : Option Nat
  usddd_transfer_tx_hash : Option Nat
  usddd_transferred_at : Option Nat
  usddd_allocated : Option ℚ
  usddd_accrual_started_at : Option Nat
  usddd_accrued_display : Option ℚ
deriving DecidableEq, Repr

attribute [ext] Position

/-- Environment-derived configuration shared by the routes: USDT token
contract address, treasury address, token decimals, and custody-token
decimals. -/
structure Config where
  usdt : Nat
  treasury : Nat
  decimals : Nat
  usdddDecimals : Nat
deriving DecidableEq, Repr

/-- A transaction submitted to the chain by a route handler. -/
inductive ChainTx where
  | topup (toAddr : Nat) (amountWei : Nat)
  | sweepTransfer (toAddr : Nat) (amountRaw : ℚ)
  | mintToTreasury (amountWei : ℚ)
  | allocTransfer (toAddr : Nat) (amountWei : ℚ)
deriving DecidableEq, Repr

/-- `formatUnits(raw, decimals)` as an exact rational: `raw / 10 ^ decimals`. -/
def formatUnitsQ (raw : Nat) (decimals : Nat) : ℚ :=
  (raw : ℚ) / (10 : ℚ) ^ decimals

/-- An event log from a transaction receipt: emitting contract address,
topic list, and the (decoded) `uint256` data word. -/
structure TxLog where
  address : Nat
  topics : List Nat
  data : Nat
deriving DecidableEq, Repr

/-- A transaction receipt: execution status and emitted logs. -/
structure Receipt where
  success : Bool
  logs : List TxLog
deriving DecidableEq, Repr

/-- `keccak("Transfer(address,address,uint256)")`, the canonical transfer
event signature the routes match on (topic 0). -/
def transferTopic : Nat :=
  0xddf252ad1be2c89b69c2b068fc378daa952ba7f163c4a11628f55a4df523b3ef

/-- The per-log filter of confirm's receipt scan: emitted by the USDT
contract, at least three topics, topic 0 is the transfer signature, and
the decoded `to` (topic 2) is the position's deposit address. -/
def matchesTransfer (usdt : Nat) (toAddr : Nat) (lg : TxLog) : Bool :=
  lg.address = usdt && 3 ≤ lg.topics.length &&
    lg.topics.get? 0 = some transferTopic && lg.topics.get? 2 = some toAddr

/-- Confirm's receipt scan: the first log matching `matchesTransfer`
yields the raw amount and the loop breaks; later logs are never read. -/
def findTransferAmount (usdt : Nat) (toAddr : Nat) : List TxLog → Option Nat
  | [] => none
  | lg :: rest =>
      if matchesTransfer usdt toAddr lg then some lg.data
      else findTransferAmount usdt toAddr rest

/-- The shared conditional update committing a deposit
(`.eq("status","awaiting_funds").is("deposit_tx_hash", null)`): writes
`deposit_tx_hash`, `funded_usdt`, `funded_at`, `status := funded_locked`
(and, for confirm, `terminal_user_id` when resolved) only if the row still
matches the precondition; returns whether a row was matched. -/
def depositCAS (p : Position) (tx : Nat) (amt : ℚ) (ts : Nat)
    (tuid : Option Nat) : Position × Bool :=
  if p.status = .awaiting_funds ∧ p.deposit_tx_hash = none then
    ({ p with
        deposit_tx_hash := some tx
        funded_usdt := some amt
        funded_at := some ts
        status := .funded_locked
        terminal_user_id :=
          match tuid with
          | some u => some u
          | none => p.terminal_user_id }, true)
  else (p, false)

/-- Errors confirm can throw (each becomes `{ok:false, error}` / HTTP 400). -/
inductive ConfirmError where
  | badTxHash
  | notConfirmable
  | receiptNotFound
  | txNotSuccessful
  | noMatchingTransfer
  | outOfBounds
  | raceLost
deriving DecidableEq, Repr

/-- Confirm's success JSON body (the fields the claims talk about):
`already` is the "Already confirmed (deposit_tx_hash set)." note, `status`
the reported status, and `sweep` / `mint` the `ok` flags of the nested
auto-sweep / auto-mint sub-results (`none` when not invoked). -/
structure ConfirmResp where
  already : Bool
  status : Status
  terminal_user_id : Option Nat
  sweep : Option Bool
  mint : Option Bool
deriving DecidableEq, Repr

/-- Oracle inputs to one confirm call: the submitted hash and whether it
passed `isHexTx`, the caller identity resolved from `dd_sessions`, the
fetched receipt, the deposit block timestamp, and the `ok` flags of the
nested sweep / mint HTTP calls (a failed fetch is caught and becomes
`{ok:false}`, so a flag always exists). -/
structure ConfirmInput where
  tx : Nat
  txValid : Bool
  terminalUserId : Option Nat
  receipt : Option Receipt
  blockTs : Nat
  sweepOk : Bool
  mintOk : Bool
deriving DecidableEq, Repr

/-- The confirm route (`src/app/api/fund/confirm/route.ts` POST) acting on
the position resolved from `ref`: short-circuit if `deposit_tx_hash` is
already set (late-binding `terminal_user_id`), otherwise require
`awaiting_funds`, a successful receipt, a matching transfer within
`[expected_min, expected_max]`, then commit via `depositCAS` and report
the nested sweep / mint outcomes without failing its own response. -/
def confirm (cfg : Config) (inp : ConfirmInput) (p : Position) :
    Except ConfirmError ConfirmResp × Position :=
  if inp.txValid = false then (.error .badTxHash, p)
  else if p.deposit_tx_hash.isSome then
    (.ok { already := true
           status := p.status
           terminal_user_id := p.terminal_user_id <|> inp.terminalUserId
           sweep := none
           mint := none },
     if p.terminal_user_id = none ∧ inp.terminalUserId.isSome then
       { p with terminal_user_id := inp.terminalUserId }
     else p)
  else if p.status ≠ .awaiting_funds then (.error .notConfirmable, p)
  else
    match inp.receipt with
    | none => (.error .receiptNotFound, p)
    | some r =>
      if r.success = false then (.error .txNotSuccessful, p)
      else
        match findTransferAmount cfg.usdt p.issued_deposit_address r.logs with
        | none => (.error .noMatchingTransfer, p)
        | some raw =>
          let amount := formatUnitsQ raw cfg.decimals
          if amount < p.expected_min_usdt ∨ p.expected_max_usdt < amount then
            (.error .outOfBounds, p)
          else
            let res := depositCAS p inp.tx amount inp.blockTs inp.terminalUserId
            if res.2 then
              (.ok { already := false
                     status := if inp.sweepOk then .swept_locked else .funded_locked
                     terminal_user_id := inp.terminalUserId
                     sweep := some inp.sweepOk
                     mint := if inp.sweepOk then some inp.mintOk else none }, res.1)
            else (.error .raceLost, res.1)

/-- A log returned by the watcher's `getLogs` query. The RPC-side topic
filter (USDT address, transfer topic 0, padded `to` topic) has already
been applied; the route still checks amount bounds and hash shape. -/
structure WatchLog where
  txHash : Nat
  hashValid : Bool
  data : Nat
deriving DecidableEq, Repr

/-- Oracle inputs to the watcher's per-position scan: the logs of the
scanned window in chunk order (older to newer) and the block timestamp of
the winning log. -/
structure WatchInput where
  logs : List WatchLog
  blockTs : Nat
deriving DecidableEq, Repr

/-- The watcher's inner log loop: the first log whose decoded amount lies
in `[min, max]` and whose transaction hash passes `isHexTx` wins. -/
def watchScan (min max : ℚ) (decimals : Nat) (logs : List WatchLog) :
    Option WatchLog :=
  logs.find? fun lg =>
    let amt := formatUnitsQ lg.data decimals
    decide (min ≤ amt) && decide (amt ≤ max) && lg.hashValid

/-- The watch route (`src/app/api/fund/watch/route.ts` GET) processing one
selected position: hard-stop skips for a status beyond `awaiting_funds` or
an already-set `deposit_tx_hash`, then the chunked scan, then the same
guarded conditional update as confirm (`depositCAS`, with no
`terminal_user_id`). Returns the new row and whether an update was
committed (reported in `updates`). -/
def watchProcess (cfg : Config) (inp : WatchInput) (p : Position) :
    Position × Bool :=
  if p.status ≠ .awaiting_funds then (p, false)
  else if p.deposit_tx_hash.isSome then (p, false)
  else
    match watchScan p.expected_min_usdt p.expected_max_usdt cfg.decimals inp.logs with
    | none => (p, false)
    | some lg =>
        depositCAS p lg.txHash (formatUnitsQ lg.data cfg.decimals) inp.blockTs none

/-- Errors the sweep route can throw. -/
inductive SweepError where
  | noSweepable
  | missingKey
  | badFunded
  | alreadyToppedUp
  | insufficientBalance
deriving DecidableEq, Repr

/-- Oracle inputs to one sweep call: whether the deposit key row was
present and decrypted successfully, the native balance, gas price and
estimated sweep gas, the raw USDT balance of the deposit address, the
hashes returned for the top-up and sweep submissions, and the wall
clock. -/
structure SweepInput where
  keyOk : Bool
  balWei : Nat
  gasPrice : Nat
  sweepGas : Nat
  usdtBalRaw : Nat
  topupHash : Nat
  sweepHash : Nat
  now : Nat
deriving DecidableEq, Repr

/-- `parseEther("0.00005")`: the minimum useful top-up, in wei. -/
def GAS_MIN_TOPUP_WEI : Nat := 50000000000000

/-- `parseEther("0.0005")`: the hard cap on one top-up, in wei. -/
def GAS_TOPUP_CAP_WEI : Nat := 500000000000000

/-- `requiredWei = ((sweepGas + 25000) * gasPrice) * 125 / 100` with
BigInt (truncating) division, the 1.25x-buffered gas requirement. -/
def requiredWeiCalc (sweepGas gasPrice : Nat) : Nat :=
  (sweepGas + 25000) * gasPrice * 125 / 100

/-- `topUpWei = deficit < min ? min : deficit > cap ? cap : deficit` —
the deficit clamped to `[GAS_MIN_TOPUP_WEI, GAS_TOPUP_CAP_WEI]`. -/
def clampTopup (deficit : Nat) : Nat :=
  if deficit < GAS_MIN_TOPUP_WEI then GAS_MIN_TOPUP_WEI
  else if GAS_TOPUP_CAP_WEI < deficit then GAS_TOPUP_CAP_WEI
  else deficit

/-- Tail of the sweep route after the gas stage: the USDT balance sanity
check, the sweep `transfer` submission, and the final row update
(`sweep_tx_hash`, `swept_at`, `status := swept_locked`). `p` and `txs`
carry whatever the gas stage already wrote and submitted. -/
def sweepFinish (cfg : Config) (inp : SweepInput) (p : Position)
    (txs : List ChainTx) (amountRaw : ℚ) :
    Except SweepError Nat × Position × List ChainTx :=
  if (inp.usdtBalRaw : ℚ) < amountRaw then (.error .insufficientBalance, p, txs)
  else
    (.ok inp.sweepHash,
     { p with
        sweep_tx_hash := some inp.sweepHash
        swept_at := some inp.now
        status := .swept_locked },
     txs ++ [ChainTx.sweepTransfer cfg.treasury amountRaw])

/-- The sweep route (`src/app/api/fund/sweep/route.ts` POST) on the
position resolved by its query: the query itself enforces
`status = funded_locked` and `sweep_tx_hash IS NULL` (zero rows throws
"No sweepable position found"); then key decryption, `funded_usdt`
validation, the at-most-one gas top-up stage, and `sweepFinish`. -/
def sweep (cfg : Config) (inp : SweepInput) (p : Position) :
    Except SweepError Nat × Position × List ChainTx :=
  if ¬(p.status = .funded_locked ∧ p.sweep_tx_hash = none) then
    (.error .noSweepable, p, [])
  else if inp.keyOk = false then (.error .missingKey, p, [])
  else
    match p.funded_usdt with
    | none => (.error .badFunded, p, [])
    | some funded =>
      if funded ≤ 0 then (.error .badFunded, p, [])
      else
        let amountRaw : ℚ := funded * (10 : ℚ) ^ cfg.decimals
        let requiredWei := requiredWeiCalc inp.sweepGas inp.gasPrice
        if inp.balWei < requiredWei then
          if p.gas_topup_tx_hash.isSome then (.error .alreadyToppedUp, p, [])
          else
            let topUpWei := clampTopup (requiredWei - inp.balWei)
            let p1 :=
              { p with
                  gas_topup_tx_hash := some inp.topupHash
                  gas_topup_bnb := some (formatUnitsQ topUpWei 18)
                  gas_topup_at := some inp.now }
            sweepFinish cfg inp p1
              [ChainTx.topup p.issued_deposit_address topUpWei] amountRaw
        else sweepFinish cfg inp p [] amountRaw

/-- Errors the mint route can throw. -/
inductive MintError where
  | notMintable
  | missingSweep
  | badFunded
deriving DecidableEq, Repr

/-- Oracle inputs to one mint call: the hashes returned by the
`mintToTreasury` and allocation `transfer` submissions, and the wall
clock. -/
structure MintInput where
  mintHash : Nat
  transferHash : Nat
  now : Nat
deriving DecidableEq, Repr

/-- Step 1 of the mint route: if `usddd_mint_tx_hash` is still unset,
submit `mintToTreasury` and record the hash (guarded
`.is("usddd_mint_tx_hash", null)`); otherwise reuse the recorded hash and
submit nothing. Returns (hash for the response, row, submissions). -/
def mintStep1 (inp : MintInput) (p : Position) (amountWei : ℚ) :
    Nat × Position × List ChainTx :=
  match p.usddd_mint_tx_hash with
  | some h => (h, p, [])
  | none =>
      (inp.mintHash,
       { p with
          usddd_mint_tx_hash := some inp.mintHash
          usddd_minted_at := some inp.now },
       [ChainTx.mintToTreasury amountWei])

/-- Step 2 of the mint route: if `usddd_transfer_tx_hash` is still unset,
submit the treasury-to-deposit `transfer` and record the allocation
fields (guarded `.is("usddd_transfer_tx_hash", null)`), anchoring
`usddd_accrual_started_at` to the sweep time; otherwise reuse the
recorded hash and submit nothing. -/
def mintStep2 (inp : MintInput) (p : Position) (amountWei : ℚ)
    (funded : ℚ) (depositAddr : Nat) : Nat × Position × List ChainTx :=
  match p.usddd_transfer_tx_hash with
  | some h => (h, p, [])
  | none =>
      (inp.transferHash,
       { p with
          usddd_transfer_tx_hash := some inp.transferHash
          usddd_transferred_at := some inp.now
          usddd_allocated := some funded
          usddd_accrual_started_at :=
            p.usddd_accrual_started_at <|> p.swept_at <|> some inp.now
          usddd_accrued_display := some 0 },
       [ChainTx.allocTransfer depositAddr amountWei])

/-- The mint route (`src/app/api/fund/mint/route.ts` POST): require
`swept_locked`, a recorded sweep transaction and a positive
`funded_usdt`, then run the two independently idempotent steps. The
response carries both hashes. -/
def mint (cfg : Config) (inp : MintInput) (p : Position) :
    Except MintError (Nat × Nat) × Position × List ChainTx :=
  if p.status ≠ .swept_locked then (.error .notMintable, p, [])
  else if p.sweep_tx_hash = none then (.error .missingSweep, p, [])
  else
    match p.funded_usdt with
    | none => (.error .badFunded, p, [])
    | some funded =>
      if funded ≤ 0 then (.error .badFunded, p, [])
      else
        let amountWei : ℚ := funded * (10 : ℚ) ^ cfg.usdddDecimals
        let s1 := mintStep1 inp p amountWei
        let s2 := mintStep2 inp s1.2.1 amountWei funded p.issued_deposit_address
        (.ok (s1.1, s2.1), s2.2.1, s1.2.2 ++ s2.2.2)

/-- One invocation of any of the four pipeline routes, with its oracle
inputs. -/
inductive Call where
  | confirmCall (cfg : Config) (inp : ConfirmInput)
  | watchCall (cfg : Config) (inp : WatchInput)
  | sweepCall (cfg : Config) (inp : SweepInput)
  | mintCall (cfg : Config) (inp : MintInput)

/-- The state effect of one call on the position row. -/
def applyCall (c : Call) (p : Position) : Position :=
  match c with
  | .confirmCall cfg inp => (confirm cfg inp p).2
  | .watchCall cfg inp => (watchProcess cfg inp p).1
  | .sweepCall cfg inp => (sweep cfg inp p).2.1
  | .mintCall cfg inp => (mint cfg inp p).2.1

/-- The state effect of a sequence of calls, applied in order. -/
def runCalls (cs : List Call) (p : Position) : Position :=
  cs.foldl (fun q c => applyCall c q) p

/-- `q` keeps every write-once transaction-hash field of `p` that is
already set: deposit, sweep, mint, allocation transfer, and gas top-up
hashes. -/
def preservesWriteOnce (p q : Position) : Prop :=
  (∀ v, p.deposit_tx_hash = some v → q.deposit_tx_hash = some v) ∧
  (∀ v, p.sweep_tx_hash = some v → q.sweep_tx_hash = some v) ∧
  (∀ v, p.usddd_mint_tx_hash = some v → q.usddd_mint_tx_hash = some v) ∧
  (∀ v, p.usddd_transfer_tx_hash = some v → q.usddd_transfer_tx_hash = some v) ∧
  (∀ v, p.gas_topup_tx_hash = some v → q.gas_topup_tx_hash = some v)

/-- Is `t` a gas top-up submission? -/
def isTopupTx : ChainTx → Bool
  | .topup _ _ => true
  | _ => false

/-- An authenticated symmetric cipher (the contract of node's
`aes-256-gcm`): `encrypt key iv plaintext` yields ciphertext and a
16-byte authentication tag; `decrypt` returns the plaintext only when the
tag verifies (`decipher.final()` throws otherwise). Bytes are modelled as
`Char`. -/
structure AEAD where
  encrypt : List Char → List Char → List Char → List Char × List Char
  decrypt : List Char → List Char → List Char → List Char → Option (List Char)
  tag_len : ∀ key iv pt, (encrypt key iv pt).2.length = 16
  dec_enc : ∀ key iv pt,
    decrypt key iv (encrypt key iv pt).2 (encrypt key iv pt).1 = some pt

/-- One character of `[0-9a-fA-F]`. -/
def isHexDigitChar (c : Char) : Bool :=
  ('0' ≤ c && c ≤ '9') || ('a' ≤ c && c ≤ 'f') || ('A' ≤ c && c ≤ 'F')

/-- The key-format check `/^0x[0-9a-fA-F]{64}$/`. -/
def isPrivKeyHex (s : String) : Bool :=
  match s.data with
  | '0' :: 'x' :: rest => rest.length == 64 && rest.all isHexDigitChar
  | _ => false

/-- `encryptPrivKeyHex` from the issue-address route: derive the key from
the secret (`sha256`, abstracted as `kdf`), encrypt under a fresh 12-byte
`iv`, and pack `iv ‖ tag ‖ ciphertext`. -/
def encryptPrivKeyHex (A : AEAD) (kdf : String → List Char) (iv : List Char)
    (privKeyHex : String) (secret : String) : List Char :=
  let key := kdf secret
  let enc := A.encrypt key iv privKeyHex.data
  iv ++ enc.2 ++ enc.1

/-- `decryptPrivKeyHex` from the sweep route: split the packed blob as
`iv = [0,12)`, `tag = [12,28)`, `ciphertext = [28,…)`, decrypt with tag
verification, and validate the recovered key format; any failure throws
and no key material is returned. -/
def decryptPrivKeyHex (A : AEAD) (kdf : String → List Char) (blob : List Char)
    (secret : String) : Except String String :=
  let iv := blob.take 12
  let tag := (blob.drop 12).take 16
  let ciphertext := blob.drop 28
  let key := kdf secret
  match A.decrypt key iv tag ciphertext with
  | none => .error "Unsupported state or unable to authenticate data"
  | some pt =>
      if isPrivKeyHex (String.mk pt) then .ok (String.mk pt)
      else .error "Bad decrypted key"

/-- A degenerate cipher satisfying the `AEAD` contract, used to
instantiate closed evaluations. -/
def toyAEAD : AEAD where
  encrypt := fun _ _ pt => (pt, List.replicate 16 't')
  decrypt := fun _ _ tag ct => if tag = List.replicate 16 't' then some ct else none
  tag_len := fun _ _ _ => List.length_replicate 16 't'
  dec_enc := fun _ _ _ => by simp

/-- A trivial key-derivation function for closed evaluations. -/
def toyKdf : String → List Char := fun _ => []

/-- A well-formed private key: `0x` followed by 64 hex characters. -/
def samplePk : String := String.mk ('0' :: 'x' :: List.replicate 64 '0')

/-- Concrete configuration for closed evaluations (decimals 0 keeps the
decoded amounts integral). -/
def sampleCfg : Config := { usdt := 1, treasury := 2, decimals := 0, usdddDecimals := 0 }

/-- A freshly issued position: `awaiting_funds`, bounds `[100, 250000]`,
deposit address `7`, nothing recorded yet. -/
def samplePos : Position where
  id := 1
  position_ref := 1
  issued_deposit_address := 7
  expected_min_usdt := 100
  expected_max_usdt := 250000
  status := .awaiting_funds
  deposit_tx_hash := none
  funded_usdt := none
  funded_at := none
  terminal_user_id := none
  gas_topup_tx_hash := none
  gas_topup_bnb := none
  gas_topup_at := none
  sweep_tx_hash := none
  swept_at := none
  usddd_mint_tx_hash := none
  usddd_minted_at := none
  usddd_transfer_tx_hash := none
  usddd_transferred_at := none
  usddd_allocated := none
  usddd_accrual_started_at := none
  usddd_accrued_display := none

/-- A matching USDT transfer log to deposit address `7` carrying `v` raw
units. -/
def sampleLog (v : Nat) : TxLog :=
  { address := 1, topics := [transferTopic, 5, 7], data := v }

/-- A log that matches nothing (wrong emitting contract). -/
def sampleOtherLog : TxLog :=
  { address := 9, topics := [transferTopic, 5, 7], data := 3 }

/-- A successful receipt holding a single `v`-unit transfer. -/
def sampleReceipt (v : Nat) : Receipt := { success := true, logs := [sampleLog v] }

/-- A confirm request submitting hash `11` against `sampleReceipt v`,
whose nested sweep call failed. -/
def sampleConfirmInput (v : Nat) : ConfirmInput where
  tx := 11
  txValid := true
  terminalUserId := none
  receipt := some (sampleReceipt v)
  blockTs := 1000
  sweepOk := false
  mintOk := false

/-- `samplePos` after a committed 150-unit deposit. -/
def sampleFunded : Position :=
  { samplePos with
      status := .funded_locked
      deposit_tx_hash := some 11
      funded_usdt := some 150
      funded_at := some 1000 }

/-- `sampleFunded` after a committed sweep. -/
def sampleSwept : Position :=
  { sampleFunded with
      status := .swept_locked
      sweep_tx_hash := some 21
      swept_at := some 2000 }

/-- `sampleSwept` after mint step 1 committed but step 2 did not. -/
def sampleMintedPartial : Position :=
  { sampleSwept with
      usddd_mint_tx_hash := some 31
      usddd_minted_at := some 3000 }

/-- Sweep oracle inputs with ample native balance. -/
def sampleSweepInput : SweepInput where
  keyOk := true
  balWei := 1000000000000000000
  gasPrice := 1
  sweepGas := 100000
  usdtBalRaw := 150
  topupHash := 41
  sweepHash := 21
  now := 2000

/-- Sweep oracle inputs with zero native balance (forces the top-up
stage). -/
def sampleSweepLowGas : SweepInput := { sampleSweepInput with balWei := 0 }

/-- Mint oracle inputs. -/
def sampleMintInput : MintInput := { mintHash := 31, transferHash := 32, now := 3000 }

/-- Watcher oracle inputs over an empty window. -/
def sampleWatchInput : WatchInput := { logs := [], blockTs := 1000 }

theorem preservesWriteOnce_refl (p : Position) : preservesWriteOnce p p := by
  refine ⟨?_, ?_, ?_, ?_, ?_⟩ <;> exact fun v h => h

theorem preservesWriteOnce_trans {p q r : Position}
    (h1 : preservesWriteOnce p q) (h2 : preservesWriteOnce q r) :
    preservesWriteOnce p r := by
  obtain ⟨a1, b1, c1, d1, e1⟩ := h1
  obtain ⟨a2, b2, c2, d2, e2⟩ := h2
  exact ⟨fun v h => a2 v (a1 v h), fun v h => b2 v (b1 v h),
         fun v h => c2 v (c1 v h), fun v h => d2 v (d1 v h),
         fun v h => e2 v (e1 v h)⟩

theorem depositCAS_preserves (p : Position) (tx : Nat) (amt : ℚ) (ts : Nat)
    (tuid : Option Nat) : preservesWriteOnce p (depositCAS p tx amt ts tuid).1 := by
  unfold depositCAS
  split
  · rename_i h
    refine ⟨?_, ?_, ?_, ?_, ?_⟩ <;> intro v hv <;> simp_all
  · exact preservesWriteOnce_refl p

/-- C3: when Confirm and the Watcher run concurrently on a position still
in `awaiting_funds` with no recorded deposit transaction, the interleaving
serializes their identical conditional updates (`depositCAS`, used by both
`confirm` and `watchProcess`): the first to execute matches a row and
commits the transition to `funded_locked`; the second matches zero rows
and performs no write, and the watcher's rescan of the advanced position
skips it entirely. -/
theorem race_single_winner (p : Position)
    (h1 : p.status = .awaiting_funds) (h2 : p.deposit_tx_hash = none)
    (tx1 tx2 : Nat) (a1 a2 : ℚ) (t1 t2 : Nat) (u1 u2 : Option Nat) :
    (depositCAS p tx1 a1 t1 u1).2 = true ∧
    depositCAS (depositCAS p tx1 a1 t1 u1).1 tx2 a2 t2 u2 =
      ((depositCAS p tx1 a1 t1 u1).1, false) ∧
    ∀ (cfg : Config) (inp : WatchInput),
      watchProcess cfg inp (depositCAS p tx1 a1 t1 u1).1 =
        ((depositCAS p tx1 a1 t1 u1).1, false) := by
  have hwin : depositCAS p tx1 a1 t1 u1 =
      ({ p with
          deposit_tx_hash := some tx1
          funded_usdt := some a1
          funded_at := some t1
          status := .funded_locked
          terminal_user_id :=
            match u1 with
            | some u => some u
            | none => p.terminal_user_id }, true) := by
    unfold depositCAS
    rw [if_pos ⟨h1, h2⟩]
  refine ⟨by rw [hwin], ?_, ?_⟩
  · rw [hwin]
    unfold depositCAS
    rw [if_neg]
    simp
  · intro cfg inp
    rw [hwin]
    unfold watchProcess
    rw [if_pos]
    simp

theorem race_single_winner_witness :
    (depositCAS samplePos 11 150 1000 none).2 = true ∧
    depositCAS (depositCAS samplePos 11 150 1000 none).1 12 160 1001 none =
      ((depositCAS samplePos 11 150 1000 none).1, false) ∧
    watchProcess sampleCfg sampleWatchInput (depositCAS samplePos 11 150 1000 none).1 =
      ((depositCAS samplePos 11 150 1000 none).1, false) := by
  have h := race_single_winner samplePos rfl rfl 11 12 150 160 1000 1001 none none
  exact ⟨h.1, h.2.1, h.2.2 sampleCfg sampleWatchInput⟩

/-- C4: a sweep call against a position whose status is not
`funded_locked`, or which already records a `sweep_tx_hash`, fails
immediately ("No sweepable position found"), submits no transaction, and
leaves every field unchanged. -/
theorem sweep_rejects_unsweepable (cfg : Config) (inp : SweepInput) (p : Position)
    (h : ¬(p.status = .funded_locked ∧ p.sweep_tx_hash = none)) :
    sweep cfg inp p = (.error .noSweepable, p, []) := by
  unfold sweep
  rw [if_pos h]

theorem sweep_rejects_unsweepable_witness :
    sweep sampleCfg sampleSweepInput sampleSwept =
      (.error .noSweepable, sampleSwept, []) :=
  sweep_rejects_unsweepable sampleCfg sampleSweepInput sampleSwept (by simp [sampleSwept])

/-- C7: confirm against a position whose `deposit_tx_hash` is already set
returns success with the "already confirmed" note and the existing status,
and changes no settlement field — only an unset `terminal_user_id` may be
late-bound from the request. -/
theorem confirm_already_idempotent (cfg : Config) (inp : ConfirmInput) (p : Position)
    (h : Nat) (htx : inp.txValid = true) (hset : p.deposit_tx_hash = some h) :
    confirm cfg inp p =
      (.ok { already := true
             status := p.status
             terminal_user_id := p.terminal_user_id <|> inp.terminalUserId
             sweep := none
             mint := none },
       { p with terminal_user_id := p.terminal_user_id <|> inp.terminalUserId }) := by
  have hpos : (if p.terminal_user_id = none ∧ inp.terminalUserId.isSome then
        { p with terminal_user_id := inp.terminalUserId } else p)
      = { p with terminal_user_id := p.terminal_user_id <|> inp.terminalUserId } := by
    rcases hp : p.terminal_user_id with _ | u
    · rcases hi : inp.terminalUserId with _ | w
      · rw [if_neg (by simp [hi])]
        ext <;> simp [hp]
      · rw [if_pos ⟨rfl, by simp [hi]⟩]
        ext <;> simp [hp, hi]
    · rw [if_neg (by simp)]
      ext <;> simp [hp]
  unfold confirm
  rw [if_neg (by simp [htx]), if_pos (by simp [hset]), hpos]

theorem confirm_already_idempotent_witness :
    confirm sampleCfg (sampleConfirmInput 150) sampleFunded =
      (.ok { already := true
             status := Status.funded_locked
             terminal_user_id := none
             sweep := none
             mint := none },
       sampleFunded) := by
  have h := confirm_already_idempotent sampleCfg (sampleConfirmInput 150)
    sampleFunded 11 rfl rfl
  simpa [sampleFunded, samplePos, sampleConfirmInput, Option.orElse] using h

theorem confirm_commit_eq (cfg : Config) (inp : ConfirmInput) (p : Position)
    (r : Receipt) (raw : Nat)
    (htx : inp.txValid = true)
    (hhash : p.deposit_tx_hash = none)
    (hst : p.status = .awaiting_funds)
    (hr : inp.receipt = some r)
    (hok : r.success = true)
    (hfind : findTransferAmount cfg.usdt p.issued_deposit_address r.logs = some raw)
    (hlo : p.expected_min_usdt ≤ formatUnitsQ raw cfg.decimals)
    (hhi : formatUnitsQ raw cfg.decimals ≤ p.expected_max_usdt) :
    confirm cfg inp p =
      (.ok { already := false
             status := if inp.sweepOk then .swept_locked else .funded_locked
             terminal_user_id := inp.terminalUserId
             sweep := some inp.sweepOk
             mint := if inp.sweepOk then some inp.mintOk else none },
       { p with
          deposit_tx_hash := some inp.tx
          funded_usdt := some (formatUnitsQ raw cfg.decimals)
          funded_at := some inp.blockTs
          status := .funded_locked
          terminal_user_id :=
            match inp.terminalUserId with
            | some u => some u
            | none => p.terminal_user_id }) := by
  have hcas : depositCAS p inp.tx (formatUnitsQ raw cfg.decimals) inp.blockTs
      inp.terminalUserId =
      ({ p with
          deposit_tx_hash := some inp.tx
          funded_usdt := some (formatUnitsQ raw cfg.decimals)
          funded_at := some inp.blockTs
          status := .funded_locked
          terminal_user_id :=
            match inp.terminalUserId with
            | some u => some u
            | none => p.terminal_user_id }, true) := by
    unfold depositCAS
    rw [if_pos ⟨hst, hhash⟩]
  unfold confirm
  rw [if_neg (by simp [htx]), if_neg (by simp [hhash]), if_neg (by simp [hst]), hr]
  dsimp only
  rw [if_neg (by simp [hok]), hfind]
  dsimp only
  rw [if_neg (by push_neg; exact ⟨hlo, hhi⟩)]
  simp only [hcas]
  rw [if_pos trivial]

theorem confirm_reject_eq (cfg : Config) (inp : ConfirmInput) (p : Position)
    (r : Receipt) (raw : Nat)
    (htx : inp.txValid = true)
    (hhash : p.deposit_tx_hash = none)
    (hst : p.status = .awaiting_funds)
    (hr : inp.receipt = some r)
    (hok : r.success = true)
    (hfind : findTransferAmount cfg.usdt p.issued_deposit_address r.logs = some raw)
    (hout : formatUnitsQ raw cfg.decimals < p.expected_min_usdt ∨
      p.expected_max_usdt < formatUnitsQ raw cfg.decimals) :
    confirm cfg inp p = (.error .outOfBounds, p) := by
  unfold confirm
  rw [if_neg (by simp [htx]), if_neg (by simp [hhash]), if_neg (by simp [hst]), hr]
  dsimp only
  rw [if_neg (by simp [hok]), hfind]
  dsimp only
  rw [if_pos hout]

/-- C1: with the position still in `awaiting_funds` and a decoded transfer
amount `a = raw / 10 ^ decimals` found in the submitted transaction's
receipt, confirm commits and records `a` as `funded_usdt` iff
`expected_min ≤ a ≤ expected_max`; outside the bounds it returns the
out-of-bounds error and writes nothing, leaving the row exactly as it was
(still `awaiting_funds`). -/
theorem confirm_amount_bounds (cfg : Config) (inp : ConfirmInput) (p : Position)
    (r : Receipt) (raw : Nat)
    (htx : inp.txValid = true)
    (hhash : p.deposit_tx_hash = none)
    (hst : p.status = .awaiting_funds)
    (hr : inp.receipt = some r)
    (hok : r.success = true)
    (hfind : findTransferAmount cfg.usdt p.issued_deposit_address r.logs = some raw) :
    (p.expected_min_usdt ≤ formatUnitsQ raw cfg.decimals ∧
        formatUnitsQ raw cfg.decimals ≤ p.expected_max_usdt →
      (∃ resp, (confirm cfg inp p).1 = .ok resp) ∧
      (confirm cfg inp p).2.funded_usdt = some (formatUnitsQ raw cfg.decimals) ∧
      (confirm cfg inp p).2.status = .funded_locked ∧
      (confirm cfg inp p).2.deposit_tx_hash = some inp.tx) ∧
    (formatUnitsQ raw cfg.decimals < p.expected_min_usdt ∨
        p.expected_max_usdt < formatUnitsQ raw cfg.decimals →
      confirm cfg inp p = (.error .outOfBounds, p)) := by
  constructor
  · rintro ⟨hlo, hhi⟩
    rw [confirm_commit_eq cfg inp p r raw htx hhash hst hr hok hfind hlo hhi]
    exact ⟨⟨_, rfl⟩, rfl, rfl, rfl⟩
  · intro hout
    exact confirm_reject_eq cfg inp p r raw htx hhash hst hr hok hfind hout

theorem confirm_amount_bounds_witness :
    confirm sampleCfg (sampleConfirmInput 50) samplePos =
      (.error .outOfBounds, samplePos) :=
  (confirm_amount_bounds sampleCfg (sampleConfirmInput 50) samplePos
      (sampleReceipt 50) 50 rfl rfl rfl rfl rfl (by decide)).2
    (Or.inl (by norm_num [formatUnitsQ, samplePos, sampleCfg]))

/-- C8: once the conditional update committing the deposit succeeds,
confirm's own response is the success (`Except.ok` / `ok:true`) branch for
every outcome of the chained sweep and mint stages; those outcomes appear
only as the nested `sweep` / `mint` sub-results (mint is invoked only
after a successful sweep), never as a failure of the confirm call
itself. -/
theorem confirm_ok_despite_downstream (cfg : Config) (inp : ConfirmInput)
    (p : Position) (r : Receipt) (raw : Nat)
    (htx : inp.txValid = true)
    (hhash : p.deposit_tx_hash = none)
    (hst : p.status = .awaiting_funds)
    (hr : inp.receipt = some r)
    (hok : r.success = true)
    (hfind : findTransferAmount cfg.usdt p.issued_deposit_address r.logs = some raw)
    (hlo : p.expected_min_usdt ≤ formatUnitsQ raw cfg.decimals)
    (hhi : formatUnitsQ raw cfg.decimals ≤ p.expected_max_usdt) :
    (confirm cfg inp p).1 =
      .ok { already := false
            status := if inp.sweepOk then .swept_locked else .funded_locked
            terminal_user_id := inp.terminalUserId
            sweep := some inp.sweepOk
            mint := if inp.sweepOk then some inp.mintOk else none } := by
  rw [confirm_commit_eq cfg inp p r raw htx hhash hst hr hok hfind hlo hhi]

theorem confirm_ok_despite_downstream_witness :
    (confirm sampleCfg (sampleConfirmInput 150) samplePos).1 =
      .ok { already := false
            status := .funded_locked
            terminal_user_id := none
            sweep := some false
            mint := none } := by
  have h := confirm_ok_despite_downstream sampleCfg (sampleConfirmInput 150) samplePos
    (sampleReceipt 150) 150 rfl rfl rfl rfl rfl (by decide)
    (by norm_num [formatUnitsQ, samplePos, sampleCfg])
    (by norm_num [formatUnitsQ, samplePos, sampleCfg])
  simpa [sampleConfirmInput] using h

/-- C5: when the native balance is below the buffered gas requirement, the
sweep performs at most one automated top-up: a recorded
`gas_topup_tx_hash` makes it fail with the already-topped-up error,
sending nothing; otherwise exactly one top-up is sent, whose amount is the
computed deficit clamped to `[GAS_MIN_TOPUP_WEI, GAS_TOPUP_CAP_WEI]`. -/
theorem gas_topup_at_most_once (cfg : Config) (inp : SweepInput) (p : Position)
    (f : ℚ)
    (hpre : p.status = .funded_locked ∧ p.sweep_tx_hash = none)
    (hkey : inp.keyOk = true)
    (hf : p.funded_usdt = some f) (hfpos : 0 < f)
    (hlow : inp.balWei < requiredWeiCalc inp.sweepGas inp.gasPrice) :
    (∀ h0, p.gas_topup_tx_hash = some h0 →
        sweep cfg inp p = (.error .alreadyToppedUp, p, [])) ∧
    (p.gas_topup_tx_hash = none →
        (sweep cfg inp p).2.2.filter isTopupTx =
          [ChainTx.topup p.issued_deposit_address
            (clampTopup (requiredWeiCalc inp.sweepGas inp.gasPrice - inp.balWei))]) ∧
    GAS_MIN_TOPUP_WEI ≤
      clampTopup (requiredWeiCalc inp.sweepGas inp.gasPrice - inp.balWei) ∧
    clampTopup (requiredWeiCalc inp.sweepGas inp.gasPrice - inp.balWei) ≤
      GAS_TOPUP_CAP_WEI := by
  refine ⟨?_, ?_, ?_, ?_⟩
  · intro h0 hh
    unfold sweep
    rw [if_neg (not_not_intro hpre), if_neg (by simp [hkey]), hf]
    dsimp only
    rw [if_neg (not_le.mpr hfpos), if_pos hlow, if_pos (by simp [hh])]
  · intro hnone
    unfold sweep
    rw [if_neg (not_not_intro hpre), if_neg (by simp [hkey]), hf]
    dsimp only
    rw [if_neg (not_le.mpr hfpos), if_pos hlow, if_neg (by simp [hnone])]
    unfold sweepFinish
    split
    · simp [isTopupTx]
    · simp [isTopupTx]
  · unfold clampTopup GAS_MIN_TOPUP_WEI GAS_TOPUP_CAP_WEI
    split_ifs <;> omega
  · unfold clampTopup GAS_MIN_TOPUP_WEI GAS_TOPUP_CAP_WEI
    split_ifs <;> omega

theorem gas_topup_at_most_once_witness :
    sampleFunded.gas_topup_tx_hash = none ∧
    (sweep sampleCfg sampleSweepLowGas sampleFunded).2.2.filter isTopupTx =
      [ChainTx.topup sampleFunded.issued_deposit_address
        (clampTopup
          (requiredWeiCalc sampleSweepLowGas.sweepGas sampleSweepLowGas.gasPrice -
            sampleSweepLowGas.balWei))] :=
  ⟨rfl,
   (gas_topup_at_most_once sampleCfg sampleSweepLowGas sampleFunded 150
      ⟨rfl, rfl⟩ rfl rfl (by norm_num) (by decide)).2.1 rfl⟩

/-- C6: the mint route's two steps are independently idempotent. With
step 1 already recorded (`usddd_mint_tx_hash = some m`) and step 2 still
unset, re-invoking mint submits only the allocation transfer — no second
`mintToTreasury` — keeps the recorded mint hash, and completes the
allocation fields. -/
theorem mint_resumes_step2 (cfg : Config) (inp : MintInput) (p : Position)
    (f : ℚ) (s m : Nat)
    (hst : p.status = .swept_locked)
    (hsw : p.sweep_tx_hash = some s)
    (hf : p.funded_usdt = some f) (hfpos : 0 < f)
    (hm : p.usddd_mint_tx_hash = some m)
    (ht : p.usddd_transfer_tx_hash = none) :
    mint cfg inp p =
      (.ok (m, inp.transferHash),
       { p with
          usddd_transfer_tx_hash := some inp.transferHash
          usddd_transferred_at := some inp.now
          usddd_allocated := some f
          usddd_accrual_started_at :=
            p.usddd_accrual_started_at <|> p.swept_at <|> some inp.now
          usddd_accrued_display := some 0 },
       [ChainTx.allocTransfer p.issued_deposit_address
          (f * (10 : ℚ) ^ cfg.usdddDecimals)]) := by
  unfold mint mintStep1 mintStep2
  rw [if_neg (by simp [hst]), if_neg (by simp [hsw]), hf]
  dsimp only
  rw [if_neg (not_le.mpr hfpos), hm]
  dsimp only
  rw [ht]
  dsimp only
  rw [hm, hf]
  simp only [List.nil_append]

theorem mint_resumes_step2_witness :
    mint sampleCfg sampleMintInput sampleMintedPartial =
      (.ok (31, 32),
       { sampleMintedPartial with
          usddd_transfer_tx_hash := some 32
          usddd_transferred_at := some 3000
          usddd_allocated := some 150
          usddd_accrual_started_at :=
            sampleMintedPartial.usddd_accrual_started_at <|>
              sampleMintedPartial.swept_at <|> some 3000
          usddd_accrued_display := some 0 },
       [ChainTx.allocTransfer sampleMintedPartial.issued_deposit_address
          ((150 : ℚ) * (10 : ℚ) ^ sampleCfg.usdddDecimals)]) :=
  mint_resumes_step2 sampleCfg sampleMintInput sampleMintedPartial 150 21 31
    rfl rfl rfl (by norm_num) rfl rfl

theorem confirm_preserves (cfg : Config) (inp : ConfirmInput) (p : Position) :
    preservesWriteOnce p (confirm cfg inp p).2 := by
  unfold confirm
  dsimp only
  repeat' split
  all_goals
    first
      | exact preservesWriteOnce_refl p
      | exact depositCAS_preserves _ _ _ _ _

theorem watchProcess_preserves (cfg : Config) (inp : WatchInput) (p : Position) :
    preservesWriteOnce p (watchProcess cfg inp p).1 := by
  unfold watchProcess
  repeat' split
  all_goals
    first
      | exact preservesWriteOnce_refl p
      | exact depositCAS_preserves _ _ _ _ _

theorem sweepFinish_preserves (cfg : Config) (inp : SweepInput) (p : Position)
    (txs : List ChainTx) (amountRaw : ℚ) (hsw : p.sweep_tx_hash = none) :
    preservesWriteOnce p (sweepFinish cfg inp p txs amountRaw).2.1 := by
  unfold sweepFinish
  split
  · exact preservesWriteOnce_refl p
  · refine ⟨?_, ?_, ?_, ?_, ?_⟩ <;> intro v hv <;> simp_all

theorem sweep_preserves (cfg : Config) (inp : SweepInput) (p : Position) :
    preservesWriteOnce p (sweep cfg inp p).2.1 := by
  unfold sweep
  by_cases hpre : p.status = .funded_locked ∧ p.sweep_tx_hash = none
  · rw [if_neg (not_not_intro hpre)]
    dsimp only
    repeat' split
    all_goals
      first
        | exact preservesWriteOnce_refl p
        | exact sweepFinish_preserves _ _ _ _ _ hpre.2
        | (refine preservesWriteOnce_trans
              (q := { p with
                  gas_topup_tx_hash := some inp.topupHash
                  gas_topup_bnb := some (formatUnitsQ
                    (clampTopup (requiredWeiCalc inp.sweepGas inp.gasPrice - inp.balWei)) 18)
                  gas_topup_at := some inp.now }) ?_
              (sweepFinish_preserves _ _ _ _ _ (by simpa using hpre.2))
           refine ⟨?_, ?_, ?_, ?_, ?_⟩ <;> intro v hv <;> simp_all)
  · rw [if_pos hpre]
    exact preservesWriteOnce_refl p

theorem mintStep1_preserves (inp : MintInput) (p : Position) (amountWei : ℚ) :
    preservesWriteOnce p (mintStep1 inp p amountWei).2.1 := by
  unfold mintStep1
  split
  · exact preservesWriteOnce_refl p
  · refine ⟨?_, ?_, ?_, ?_, ?_⟩ <;> intro v hv <;> simp_all

theorem mintStep2_preserves (inp : MintInput) (p : Position) (amountWei : ℚ)
    (funded : ℚ) (depositAddr : Nat) :
    preservesWriteOnce p (mintStep2 inp p amountWei funded depositAddr).2.1 := by
  unfold mintStep2
  split
  · exact preservesWriteOnce_refl p
  · refine ⟨?_, ?_, ?_, ?_, ?_⟩ <;> intro v hv <;> simp_all

theorem mint_preserves (cfg : Config) (inp : MintInput) (p : Position) :
    preservesWriteOnce p (mint cfg inp p).2.1 := by
  unfold mint
  repeat' split
  all_goals
    first
      | exact preservesWriteOnce_refl p
      | exact preservesWriteOnce_trans (mintStep1_preserves _ _ _)
          (mintStep2_preserves _ _ _ _ _)

theorem applyCall_preserves (c : Call) (p : Position) :
    preservesWriteOnce p (applyCall c p) := by
  cases c with
  | confirmCall cfg inp => exact confirm_preserves cfg inp p
  | watchCall cfg inp => exact watchProcess_preserves cfg inp p
  | sweepCall cfg inp => exact sweep_preserves cfg inp p
  | mintCall cfg inp => exact mint_preserves cfg inp p

/-- C2: across every sequence of confirm, watch, sweep and mint calls,
each write-once field (`deposit_tx_hash`, `sweep_tx_hash`,
`usddd_mint_tx_hash`, `usddd_transfer_tx_hash`, `gas_topup_tx_hash`) keeps
its value once it is set to a non-null one. -/
theorem write_once_fields_stable (cs : List Call) (p : Position) :
    preservesWriteOnce p (runCalls cs p) := by
  induction cs generalizing p with
  | nil => exact preservesWriteOnce_refl p
  | cons c cs ih =>
      exact preservesWriteOnce_trans (applyCall_preserves c p) (ih (applyCall c p))

theorem write_once_fields_stable_witness :
    sampleSwept.sweep_tx_hash = some 21 ∧
    (runCalls [Call.sweepCall sampleCfg sampleSweepInput,
        Call.confirmCall sampleCfg (sampleConfirmInput 150),
        Call.mintCall sampleCfg sampleMintInput] sampleSwept).sweep_tx_hash =
      some 21 :=
  ⟨rfl,
   (write_once_fields_stable
      [Call.sweepCall sampleCfg sampleSweepInput,
       Call.confirmCall sampleCfg (sampleConfirmInput 150),
       Call.mintCall sampleCfg sampleMintInput] sampleSwept).2.1 21 rfl⟩

/-- C9: for any cipher meeting the authenticated-encryption contract, any
derived key and any private key of the expected `0x` + 64-hex format,
decrypting the packed `iv ‖ tag ‖ ciphertext` blob produced by encryption
with the same secret returns exactly the original key; and decryption
returns an error — never key material — whenever the authentication tag
does not verify or the recovered plaintext fails the key-format check. -/
theorem vault_round_trip (A : AEAD) (kdf : String → List Char) (iv : List Char)
    (secret pk : String) (hiv : iv.length = 12) (hpk : isPrivKeyHex pk = true) :
    decryptPrivKeyHex A kdf (encryptPrivKeyHex A kdf iv pk secret) secret = .ok pk ∧
    (∀ blob : List Char,
      A.decrypt (kdf secret) (blob.take 12) ((blob.drop 12).take 16)
          (blob.drop 28) = none →
      ∃ e, decryptPrivKeyHex A kdf blob secret = .error e) ∧
    (∀ blob pt : List Char,
      A.decrypt (kdf secret) (blob.take 12) ((blob.drop 12).take 16)
          (blob.drop 28) = some pt →
      isPrivKeyHex (String.mk pt) = false →
      ∃ e, decryptPrivKeyHex A kdf blob secret = .error e) := by
  refine ⟨?_, ?_, ?_⟩
  · have htag : (A.encrypt (kdf secret) iv pk.data).2.length = 16 := A.tag_len _ _ _
    have h1 : (iv ++ (A.encrypt (kdf secret) iv pk.data).2 ++
        (A.encrypt (kdf secret) iv pk.data).1).take 12 = iv := by
      rw [List.append_assoc]
      exact List.take_left' hiv
    have h2 : ((iv ++ (A.encrypt (kdf secret) iv pk.data).2 ++
        (A.encrypt (kdf secret) iv pk.data).1).drop 12).take 16 =
        (A.encrypt (kdf secret) iv pk.data).2 := by
      rw [List.append_assoc, List.drop_left' hiv]
      exact List.take_left' htag
    have h3 : (iv ++ (A.encrypt (kdf secret) iv pk.data).2 ++
        (A.encrypt (kdf secret) iv pk.data).1).drop 28 =
        (A.encrypt (kdf secret) iv pk.data).1 := by
      apply List.drop_left'
      simp [hiv, htag]
    unfold decryptPrivKeyHex encryptPrivKeyHex
    dsimp only
    rw [h1, h2, h3, A.dec_enc]
    simp only [show String.mk pk.data = pk from rfl, hpk]
    rfl
  · intro blob hdec
    unfold decryptPrivKeyHex
    dsimp only
    rw [hdec]
    exact ⟨_, rfl⟩
  · intro blob pt hdec hfmt
    unfold decryptPrivKeyHex
    dsimp only
    rw [hdec]
    dsimp only
    rw [if_neg (by simp [hfmt])]
    exact ⟨_, rfl⟩

theorem vault_round_trip_witness :
    (List.replicate 12 'i').length = 12 ∧ isPrivKeyHex samplePk = true ∧
    decryptPrivKeyHex toyAEAD toyKdf
      (encryptPrivKeyHex toyAEAD toyKdf (List.replicate 12 'i') samplePk "secret")
      "secret" = .ok samplePk :=
  ⟨by simp, by decide,
   (vault_round_trip toyAEAD toyKdf (List.replicate 12 'i') "secret" samplePk
      (by simp) (by decide)).1⟩

theorem findTransferAmount_append (usdt toAddr : Nat) (pre rest : List TxLog)
    (hpre : ∀ l ∈ pre, matchesTransfer usdt toAddr l = false) :
    findTransferAmount usdt toAddr (pre ++ rest) =
      findTransferAmount usdt toAddr rest := by
  induction pre with
  | nil => rfl
  | cons a as ih =>
      have ha := hpre a (by simp)
      rw [List.cons_append, findTransferAmount, if_neg (by simp [ha])]
      exact ih fun l hl => hpre l (by simp [hl])

/-- C10: when a receipt holds several logs matching the expected token
contract, the canonical transfer signature and the deposit address, the
scan yields the value of the first matching log only — later matches are
ignored and never summed — and confirm's whole behaviour (bounds check
included) on such a receipt coincides with its behaviour on a receipt
holding just that first matching log. -/
theorem confirm_first_match_only (usdt toAddr : Nat) (pre post : List TxLog)
    (lg : TxLog)
    (hpre : ∀ l ∈ pre, matchesTransfer usdt toAddr l = false)
    (hlg : matchesTransfer usdt toAddr lg = true) :
    findTransferAmount usdt toAddr (pre ++ lg :: post) = some lg.data ∧
    ∀ (cfg : Config) (inp : ConfirmInput) (p : Position) (s : Bool),
      cfg.usdt = usdt → p.issued_deposit_address = toAddr →
      confirm cfg
          { inp with receipt := some { success := s, logs := pre ++ lg :: post } } p =
        confirm cfg
          { inp with receipt := some { success := s, logs := [lg] } } p := by
  have hone : findTransferAmount usdt toAddr (lg :: post) = some lg.data := by
    unfold findTransferAmount
    rw [if_pos (by simp [hlg])]
  have hall : findTransferAmount usdt toAddr (pre ++ lg :: post) = some lg.data := by
    rw [findTransferAmount_append usdt toAddr pre (lg :: post) hpre]
    exact hone
  have hsingle : findTransferAmount usdt toAddr [lg] = some lg.data := by
    unfold findTransferAmount
    rw [if_pos (by simp [hlg])]
  refine ⟨hall, ?_⟩
  intro cfg inp p s hu ha
  unfold confirm
  dsimp only
  rw [show findTransferAmount cfg.usdt p.issued_deposit_address (pre ++ lg :: post) =
        some lg.data by rw [hu, ha]; exact hall,
      show findTransferAmount cfg.usdt p.issued_deposit_address [lg] =
        some lg.data by rw [hu, ha]; exact hsingle]

theorem confirm_first_match_only_witness :
    findTransferAmount 1 7 ([sampleOtherLog] ++ sampleLog 150 :: [sampleLog 999]) =
      some 150 ∧
    confirm sampleCfg
        { sampleConfirmInput 150 with
            receipt := some { success := true
                              logs := [sampleOtherLog] ++ sampleLog 150 :: [sampleLog 999] } }
        samplePos =
      confirm sampleCfg
        { sampleConfirmInput 150 with
            receipt := some { success := true, logs := [sampleLog 150] } }
        samplePos := by
  have h := confirm_first_match_only 1 7 [sampleOtherLog] [sampleLog 999]
    (sampleLog 150) (by decide) (by decide)
  exact ⟨h.1, h.2 sampleCfg (sampleConfirmInput 150) samplePos true rfl rfl⟩

end FundPipeline
